import Mathlib

/-!
Shallow embedding of the AlphaOptions decision core (models.py, risk.py,
strategies.py) and verification of the frozen claims about it.

Modelling conventions:
- Python Decimal values are embedded as exact rationals.  Decimal arithmetic
  in the source is exact for the operations used (add, sub, mul; division is
  carried at 28 significant digits and the float round-trips via str are
  identity on the literals appearing here), so plain rational arithmetic is
  the faithful semantics.
- Python float values (percent limits, confidence, deltas) are likewise
  embedded as rationals.
- datetime values are embedded by their time of day in seconds, which is the
  only component the code inspects (via the 15:15 cutoff comparison); the
  optional current_time argument is modelled as always supplied.
- Methods that raise are embedded with Except; methods that mutate are
  embedded as functions returning the new state.
-/

namespace AlphaOptions

/-! models.py -/

inductive OptionType where
  | call
  | put
deriving DecidableEq, Repr

inductive OrderSide where
  | buy
  | sell
deriving DecidableEq, Repr

inductive StrategyType where
  | long_call
  | long_put
  | straddle
  | strangle
  | vertical_spread
deriving DecidableEq, Repr

/-- OptionContract from models.py.  Optional quote fields default to none
and the numeric defaults mirror the dataclass defaults. -/
structure OptionContract where
  symbol : String
  underlying : String
  option_type : OptionType
  strike : ℚ
  expiration : Nat
  bid : Option ℚ := none
  ask : Option ℚ := none
  last_price : Option ℚ := none
  volume : Int := 0
  open_interest : Int := 0
  implied_volatility : Option ℚ := none
  delta : Option ℚ := none
  gamma : Option ℚ := none
  theta : Option ℚ := none
  vega : Option ℚ := none
deriving DecidableEq, Repr

/-- mid_price property: average of bid and ask when both are present,
otherwise the last trade price (possibly none). -/
def OptionContract.mid_price (c : OptionContract) : Option ℚ :=
  match c.bid, c.ask with
  | some b, some a => some ((b + a) / 2)
  | _, _ => c.last_price

/-- Position from models.py. -/
structure Position where
  contract : OptionContract
  quantity : Int
  entry_price : ℚ
  entry_time : Nat
  side : OrderSide
deriving DecidableEq, Repr

/-- is_long property. -/
def Position.is_long (p : Position) : Bool :=
  decide (p.side = OrderSide.buy)

/-- notional_value property: entry_price * quantity * 100. -/
def Position.notional_value (p : Position) : ℚ :=
  p.entry_price * (p.quantity : ℚ) * 100

/-- Order from models.py, with the dataclass field defaults. created_at
models the construction timestamp (datetime.now at creation). -/
structure Order where
  contract : OptionContract
  side : OrderSide
  quantity : Int
  order_type : String := "limit"
  limit_price : Option ℚ := none
  time_in_force : String := "day"
  order_id : Option String := none
  status : String := "new"
  filled_quantity : Int := 0
  filled_price : Option ℚ := none
  created_at : Nat := 0
deriving DecidableEq, Repr

/-- Order.validate from models.py: sequential early-return checks on
quantity, missing limit price for limit orders, and non-positive limit
price (the last check applies to any order carrying a limit price). -/
def Order.validate (o : Order) : Bool :=
  if o.quantity ≤ 0 then false
  else if o.order_type = "limit" ∧ o.limit_price = none then false
  else if (match o.limit_price with
           | some p => decide (p ≤ 0)
           | none => false) then false
  else true

/-! risk.py -/

/-- RiskLimits configuration with its dataclass defaults. -/
structure RiskLimits where
  max_portfolio_risk_pct : ℚ := 5
  max_position_size : Int := 10
  max_daily_loss_pct : ℚ := 2
  max_single_trade_risk_pct : ℚ := 1
  min_buying_power_reserve_pct : ℚ := 20
  max_concentration_pct : ℚ := 25
deriving DecidableEq, Repr

/-- PositionSizer state: the constructor arguments. -/
structure PositionSizer where
  account_value : ℚ
  risk_per_trade_pct : ℚ := 1
  max_contracts : Int := 10
deriving DecidableEq, Repr

/-- Truncation toward zero, the semantics of Python int() applied to a
Decimal quotient. -/
def ratTrunc (q : ℚ) : Int :=
  if q < 0 then ⌈q⌉ else ⌊q⌋

/-- PositionSizer.calculate_position_size: returns 0 for an unpriced or
non-positively priced contract and for non-positive risk per contract,
otherwise int(max_risk / risk_per_contract) capped at max_contracts. -/
def PositionSizer.calculate_position_size (s : PositionSizer)
    (contract : OptionContract) (stop_loss_pct : ℚ) : Int :=
  match contract.mid_price with
  | none => 0
  | some m =>
    if m ≤ 0 then 0
    else
      let max_risk := s.account_value * (s.risk_per_trade_pct / 100)
      let risk_per_contract := m * (stop_loss_pct / 100) * 100
      if risk_per_contract ≤ 0 then 0
      else min (ratTrunc (max_risk / risk_per_contract)) s.max_contracts

/-- RiskManager state: account value, limits, daily P&L accumulator and the
open-position ledger. -/
structure RiskManager where
  account_value : ℚ
  limits : RiskLimits
  daily_pnl : ℚ := 0
  open_positions : List Position := []
deriving DecidableEq, Repr

/-- portfolio_risk property: running sum over the ledger, adding the
notional value of long positions only. -/
def RiskManager.portfolio_risk (m : RiskManager) : ℚ :=
  m.open_positions.foldl
    (fun total_risk p => if p.is_long then total_risk + p.notional_value else total_risk)
    0

/-- portfolio_risk_pct property: zero when account value is non-positive,
otherwise portfolio risk over account value times 100. -/
def RiskManager.portfolio_risk_pct (m : RiskManager) : ℚ :=
  if m.account_value ≤ 0 then 0
  else m.portfolio_risk / m.account_value * 100

/-- available_risk_budget property. -/
def RiskManager.available_risk_budget (m : RiskManager) : ℚ :=
  max 0 (m.account_value * (m.limits.max_portfolio_risk_pct / 100) - m.portfolio_risk)

/-- RiskManager.can_take_trade: the five sequential early-return checks of
risk.py, with each rejection's message string. -/
def RiskManager.can_take_trade (m : RiskManager) (o : Order) : Bool × String :=
  let daily_loss_limit := m.account_value * (m.limits.max_daily_loss_pct / 100)
  if m.daily_pnl < -daily_loss_limit then (false, "Daily loss limit reached")
  else if m.limits.max_portfolio_risk_pct ≤ m.portfolio_risk_pct then
    (false, "Portfolio risk limit reached")
  else
    let single_trade_reject : Option (Bool × String) :=
      match o.limit_price with
      | some p =>
        let trade_risk := p * (o.quantity : ℚ) * 100
        let max_trade_risk := m.account_value * (m.limits.max_single_trade_risk_pct / 100)
        if max_trade_risk < trade_risk then
          some (false, "Trade risk $" ++ toString trade_risk ++ " exceeds limit $"
            ++ toString max_trade_risk)
        else none
      | none => none
    match single_trade_reject with
    | some r => r
    | none =>
      if m.limits.max_position_size < o.quantity then
        (false, "Position size " ++ toString o.quantity ++ " exceeds limit")
      else
        let underlying := o.contract.underlying
        let underlying_exposure :=
          (m.open_positions.filter
            (fun p => decide (p.contract.underlying = underlying))).foldl
            (fun acc p => acc + p.notional_value) 0
        let max_concentration := m.account_value * (m.limits.max_concentration_pct / 100)
        let concentration_reject : Option (Bool × String) :=
          match o.limit_price with
          | some p =>
            if max_concentration < underlying_exposure + p * (o.quantity : ℚ) * 100 then
              some (false, "Concentration limit reached for " ++ underlying)
            else none
          | none => none
        match concentration_reject with
        | some r => r
        | none => (true, "Trade approved")

/-- update_daily_pnl mutator, embedded as a state transformer. -/
def RiskManager.update_daily_pnl (m : RiskManager) (pnl : ℚ) : RiskManager :=
  { m with daily_pnl := m.daily_pnl + pnl }

/-- reset_daily_pnl mutator. -/
def RiskManager.reset_daily_pnl (m : RiskManager) : RiskManager :=
  { m with daily_pnl := 0 }

/-- add_position mutator. -/
def RiskManager.add_position (m : RiskManager) (p : Position) : RiskManager :=
  { m with open_positions := m.open_positions ++ [p] }

/-- calculate_max_loss: sum of long-position notional values. -/
def RiskManager.calculate_max_loss (m : RiskManager) : ℚ :=
  m.open_positions.foldl
    (fun max_loss p => if p.is_long then max_loss + p.notional_value else max_loss)
    0

/-- Snapshot record returned by get_risk_summary. -/
structure RiskSummary where
  account_value : ℚ
  portfolio_risk : ℚ
  portfolio_risk_pct : ℚ
  daily_pnl : ℚ
  available_risk_budget : ℚ
  max_possible_loss : ℚ
  open_positions_count : Nat
deriving DecidableEq, Repr

/-- get_risk_summary: the derived quantities plus the open-position count. -/
def RiskManager.get_risk_summary (m : RiskManager) : RiskSummary :=
  { account_value := m.account_value
    portfolio_risk := m.portfolio_risk
    portfolio_risk_pct := m.portfolio_risk_pct
    daily_pnl := m.daily_pnl
    available_risk_budget := m.available_risk_budget
    max_possible_loss := m.calculate_max_loss
    open_positions_count := m.open_positions.length }

/-- Method-call embedding of can_take_trade: a call on a Python object maps
a pre-state to a result and a post-state.  The method body of
can_take_trade contains only reads, so its translation threads the state
unchanged. -/
def RiskManager.can_take_trade_call (m : RiskManager) (o : Order) :
    (Bool × String) × RiskManager :=
  (m.can_take_trade o, m)

/-- Method-call embedding of get_risk_summary (read-only body). -/
def RiskManager.get_risk_summary_call (m : RiskManager) :
    RiskSummary × RiskManager :=
  (m.get_risk_summary, m)

/-! strategies.py -/

/-- Alpaca's cutoff for 0DTE orders, time(15, 15), in seconds of day. -/
def ALPACA_0DTE_CUTOFF : Nat := 15 * 3600 + 15 * 60

/-- StrategySignal from strategies.py. -/
structure StrategySignal where
  strategy_type : StrategyType
  contracts : List OptionContract
  sides : List OrderSide
  quantities : List Int
  confidence : ℚ
  reason : String
  timestamp : Nat
deriving DecidableEq, Repr

/-- StrategySignal.validate.  The middle test embeds the Python chained
comparison len(contracts) != len(sides) != len(quantities), which is the
conjunction of the two adjacent inequalities. -/
def StrategySignal.validate (s : StrategySignal) : Bool :=
  if s.contracts.isEmpty then false
  else if s.contracts.length ≠ s.sides.length ∧ s.sides.length ≠ s.quantities.length then
    false
  else if ¬(0 ≤ s.confidence ∧ s.confidence ≤ 1) then false
  else true

/-- Constructor configuration shared by every strategy (BaseStrategy). -/
structure BaseStrategyConfig where
  max_position_size : Int := 10
  min_confidence : ℚ := 0.6
  respect_cutoff : Bool := true
deriving DecidableEq, Repr

/-- BaseStrategy.is_within_trading_hours with an always-supplied time of
day in seconds: true before the 15:15 cutoff, always true when cutoff
enforcement is disabled. -/
def is_within_trading_hours (cfg : BaseStrategyConfig) (t : Nat) : Bool :=
  if cfg.respect_cutoff then decide (t < ALPACA_0DTE_CUTOFF) else true

/-- BaseStrategy.create_orders: raises ValueError (modelled as Except.error)
when the signal fails its own validation; otherwise one order per zipped
leg, with quantity capped by max_position_size and limit price taken from
the contract's mid price.  The Order defaults supply order_type = "limit". -/
def create_orders (cfg : BaseStrategyConfig) (signal : StrategySignal) :
    Except String (List Order) :=
  if ¬ signal.validate then Except.error "Invalid signal"
  else
    Except.ok <|
      (signal.contracts.zip (signal.sides.zip signal.quantities)).map
        (fun leg =>
          { contract := leg.1
            side := leg.2.1
            quantity := min leg.2.2 cfg.max_position_size
            limit_price := leg.1.mid_price })

/-- Fold keeping the first element with the strictly smallest key; the
semantics of Python min(iterable, key=...) over best :: rest. -/
def foldMinBy {α : Type} (f : α → ℚ) (best : α) : List α → α
  | [] => best
  | c :: cs => foldMinBy f (if f c < f best then c else best) cs

/-- Fold keeping the first element with the strictly largest key; the
semantics of Python max(iterable, key=...) over best :: rest. -/
def foldMaxBy {α : Type} (f : α → ℚ) (best : α) : List α → α
  | [] => best
  | c :: cs => foldMaxBy f (if f best < f c then c else best) cs

/-- Python min(l, key=f): none on an empty list, else the first element
with minimal key (also the semantics of sorted(l, key=f)[0], since Python
sort is stable). -/
def pyMinBy {α : Type} (f : α → ℚ) : List α → Option α
  | [] => none
  | c :: cs => some (foldMinBy f c cs)

/-- Python max(l, key=f): none on an empty list, else the first element
with maximal key. -/
def pyMaxBy {α : Type} (f : α → ℚ) : List α → Option α
  | [] => none
  | c :: cs => some (foldMaxBy f c cs)

/-- The delta-selection loop shared by the long-call and long-put
strategies: scan the contracts keeping the first one whose delta is
strictly closest to the target, tracking (best contract, best diff);
contracts without a delta are skipped.  The initial best_delta_diff of
infinity is modelled by the none state. -/
def deltaScan (target : ℚ) (st : Option (OptionContract × ℚ)) :
    List OptionContract → Option (OptionContract × ℚ)
  | [] => st
  | c :: cs =>
    deltaScan target
      (match c.delta with
       | none => st
       | some d =>
         let delta_diff := |d - target|
         match st with
         | none => some (c, delta_diff)
         | some best =>
           if delta_diff < best.2 then some (c, delta_diff) else some best) cs

/-- Contract selection of LongCallStrategy / LongPutStrategy over the
already-filtered option list: delta scan first, falling back to the
contract whose strike is closest to the underlying price. -/
def selectByDeltaOrAtm (target : ℚ) (underlying_price : ℚ)
    (contracts : List OptionContract) : Option OptionContract :=
  match deltaScan target none contracts with
  | some best => some best.1
  | none => pyMinBy (fun c => |c.strike - underlying_price|) contracts

/-- LongCallStrategy constructor configuration. -/
structure LongCallConfig extends BaseStrategyConfig where
  target_delta : ℚ := 0.5
  max_premium_pct : ℚ := 2
deriving DecidableEq, Repr

/-- LongCallStrategy.generate_signal.  The premium check is gated on the
truthiness of mid_price: it runs only when the mid price is present and
nonzero. -/
def LongCallStrategy.generate_signal (cfg : LongCallConfig)
    (underlying_price : ℚ) (available_contracts : List OptionContract)
    (current_time : Nat) : Option StrategySignal :=
  if ¬ is_within_trading_hours cfg.toBaseStrategyConfig current_time then none
  else
    let calls := available_contracts.filter
      (fun c => decide (c.option_type = OptionType.call))
    if calls.isEmpty then none
    else
      match selectByDeltaOrAtm cfg.target_delta underlying_price calls with
      | none => none
      | some best_contract =>
        let too_rich : Bool :=
          match best_contract.mid_price with
          | some mp =>
            if mp ≠ 0 then
              decide (mp / underlying_price * 100 > cfg.max_premium_pct)
            else false
          | none => false
        if too_rich then none
        else
          some
            { strategy_type := StrategyType.long_call
              contracts := [best_contract]
              sides := [OrderSide.buy]
              quantities := [1]
              confidence := 0.7
              reason := "Long call on " ++ best_contract.underlying ++ " @ "
                ++ toString best_contract.strike
              timestamp := current_time }

/-- LongPutStrategy constructor configuration. -/
structure LongPutConfig extends BaseStrategyConfig where
  target_delta : ℚ := -0.5
  max_premium_pct : ℚ := 2
deriving DecidableEq, Repr

/-- LongPutStrategy.generate_signal: same selection over puts, with no
premium check. -/
def LongPutStrategy.generate_signal (cfg : LongPutConfig)
    (underlying_price : ℚ) (available_contracts : List OptionContract)
    (current_time : Nat) : Option StrategySignal :=
  if ¬ is_within_trading_hours cfg.toBaseStrategyConfig current_time then none
  else
    let puts := available_contracts.filter
      (fun c => decide (c.option_type = OptionType.put))
    if puts.isEmpty then none
    else
      match selectByDeltaOrAtm cfg.target_delta underlying_price puts with
      | none => none
      | some best_contract =>
        some
          { strategy_type := StrategyType.long_put
            contracts := [best_contract]
            sides := [OrderSide.buy]
            quantities := [1]
            confidence := 0.7
            reason := "Long put on " ++ best_contract.underlying ++ " @ "
              ++ toString best_contract.strike
            timestamp := current_time }

/-- StraddleStrategy constructor configuration. -/
structure StraddleConfig extends BaseStrategyConfig where
  max_total_premium_pct : ℚ := 4
deriving DecidableEq, Repr

/-- StraddleStrategy.find_atm_strike: none when there are no contracts,
else the strike minimising the distance to the underlying price.  The
Python source takes the min over a set of strikes whose iteration order is
unspecified; the embedding scans the strikes in list order, which realises
one admissible tie-breaking. -/
def StraddleStrategy.find_atm_strike (contracts : List OptionContract)
    (underlying_price : ℚ) : Option ℚ :=
  pyMinBy (fun s => |s - underlying_price|) (contracts.map (fun c => c.strike))

/-- The straddle leg-collection loop: the last call and last put whose
strike equals the ATM strike (later matches overwrite earlier ones). -/
def straddleLegScan (atm_strike : ℚ)
    (st : Option OptionContract × Option OptionContract) :
    List OptionContract → Option OptionContract × Option OptionContract
  | [] => st
  | c :: cs =>
    straddleLegScan atm_strike
      (if c.strike = atm_strike then
        match c.option_type with
        | OptionType.call => (some c, st.2)
        | OptionType.put => (st.1, some c)
       else st) cs

/-- StraddleStrategy.generate_signal. -/
def StraddleStrategy.generate_signal (cfg : StraddleConfig)
    (underlying_price : ℚ) (available_contracts : List OptionContract)
    (current_time : Nat) : Option StrategySignal :=
  if ¬ is_within_trading_hours cfg.toBaseStrategyConfig current_time then none
  else
    match StraddleStrategy.find_atm_strike available_contracts underlying_price with
    | none => none
    | some atm_strike =>
      match straddleLegScan atm_strike (none, none) available_contracts with
      | (some atm_call, some atm_put) =>
        some
          { strategy_type := StrategyType.straddle
            contracts := [atm_call, atm_put]
            sides := [OrderSide.buy, OrderSide.buy]
            quantities := [1, 1]
            confidence := 0.65
            reason := "Straddle on " ++ atm_call.underlying ++ " @ "
              ++ toString atm_strike
            timestamp := current_time }
      | _ => none

/-- StrangleStrategy constructor configuration. -/
structure StrangleConfig extends BaseStrategyConfig where
  call_delta : ℚ := 0.3
  put_delta : ℚ := -0.3
deriving DecidableEq, Repr

/-- StrangleStrategy.generate_signal: OTM call with the smallest strike
and OTM put with the largest strike. -/
def StrangleStrategy.generate_signal (cfg : StrangleConfig)
    (underlying_price : ℚ) (available_contracts : List OptionContract)
    (current_time : Nat) : Option StrategySignal :=
  if ¬ is_within_trading_hours cfg.toBaseStrategyConfig current_time then none
  else
    let calls := available_contracts.filter
      (fun c => decide (c.option_type = OptionType.call))
    let puts := available_contracts.filter
      (fun c => decide (c.option_type = OptionType.put))
    if calls.isEmpty ∨ puts.isEmpty then none
    else
      let otm_calls := calls.filter (fun c => decide (underlying_price < c.strike))
      let otm_puts := puts.filter (fun c => decide (c.strike < underlying_price))
      if otm_calls.isEmpty ∨ otm_puts.isEmpty then none
      else
        match pyMinBy (fun c => c.strike) otm_calls,
              pyMaxBy (fun c => c.strike) otm_puts with
        | some selected_call, some selected_put =>
          some
            { strategy_type := StrategyType.strangle
              contracts := [selected_call, selected_put]
              sides := [OrderSide.buy, OrderSide.buy]
              quantities := [1, 1]
              confidence := 0.6
              reason := "Strangle: call@" ++ toString selected_call.strike
                ++ ", put@" ++ toString selected_put.strike
              timestamp := current_time }
        | _, _ => none

/-! Helper lemmas about the folds used by the embedding. -/

lemma foldMinBy_mem {α : Type} (f : α → ℚ) (b : α) (l : List α) :
    foldMinBy f b l ∈ b :: l := by
  induction l generalizing b with
  | nil => simp [foldMinBy]
  | cons c cs ih =>
    simp only [foldMinBy]
    by_cases h : f c < f b
    · rw [if_pos h]
      exact List.mem_cons_of_mem b (ih c)
    · rw [if_neg h]
      rcases List.mem_cons.mp (ih b) with h1 | h1
      · exact List.mem_cons.mpr (Or.inl h1)
      · exact List.mem_cons_of_mem b (List.mem_cons_of_mem c h1)

lemma foldMinBy_le {α : Type} (f : α → ℚ) (b : α) (l : List α) :
    ∀ a ∈ b :: l, f (foldMinBy f b l) ≤ f a := by
  induction l generalizing b with
  | nil =>
    intro a ha
    rcases List.mem_cons.mp ha with h1 | h1
    · rw [h1]
      simp [foldMinBy]
    · simp at h1
  | cons c cs ih =>
    intro a ha
    simp only [foldMinBy]
    by_cases h : f c < f b
    · rw [if_pos h]
      rcases List.mem_cons.mp ha with h1 | ha'
      · rw [h1]
        exact le_trans (ih c c (List.mem_cons_self c cs)) h.le
      · exact ih c a ha'
    · rw [if_neg h]
      rcases List.mem_cons.mp ha with h1 | ha'
      · rw [h1]
        exact ih b b (List.mem_cons_self b cs)
      · rcases List.mem_cons.mp ha' with h2 | ha''
        · rw [h2]
          exact le_trans (ih b b (List.mem_cons_self b cs)) (not_lt.mp h)
        · exact ih b a (List.mem_cons_of_mem b ha'')

lemma foldMaxBy_mem {α : Type} (f : α → ℚ) (b : α) (l : List α) :
    foldMaxBy f b l ∈ b :: l := by
  induction l generalizing b with
  | nil => simp [foldMaxBy]
  | cons c cs ih =>
    simp only [foldMaxBy]
    by_cases h : f b < f c
    · rw [if_pos h]
      exact List.mem_cons_of_mem b (ih c)
    · rw [if_neg h]
      rcases List.mem_cons.mp (ih b) with h1 | h1
      · exact List.mem_cons.mpr (Or.inl h1)
      · exact List.mem_cons_of_mem b (List.mem_cons_of_mem c h1)

lemma foldMaxBy_ge {α : Type} (f : α → ℚ) (b : α) (l : List α) :
    ∀ a ∈ b :: l, f a ≤ f (foldMaxBy f b l) := by
  induction l generalizing b with
  | nil =>
    intro a ha
    rcases List.mem_cons.mp ha with h1 | h1
    · rw [h1]
      simp [foldMaxBy]
    · simp at h1
  | cons c cs ih =>
    intro a ha
    simp only [foldMaxBy]
    by_cases h : f b < f c
    · rw [if_pos h]
      rcases List.mem_cons.mp ha with h1 | ha'
      · rw [h1]
        exact le_trans h.le (ih c c (List.mem_cons_self c cs))
      · exact ih c a ha'
    · rw [if_neg h]
      rcases List.mem_cons.mp ha with h1 | ha'
      · rw [h1]
        exact ih b b (List.mem_cons_self b cs)
      · rcases List.mem_cons.mp ha' with h2 | ha''
        · rw [h2]
          exact le_trans (not_lt.mp h) (ih b b (List.mem_cons_self b cs))
        · exact ih b a (List.mem_cons_of_mem b ha'')

lemma pyMinBy_mem {α : Type} (f : α → ℚ) (l : List α) (a : α)
    (h : pyMinBy f l = some a) : a ∈ l := by
  cases l with
  | nil => simp [pyMinBy] at h
  | cons c cs =>
    simp only [pyMinBy, Option.some.injEq] at h
    exact h ▸ foldMinBy_mem f c cs

lemma pyMinBy_le {α : Type} (f : α → ℚ) (l : List α) (a : α)
    (h : pyMinBy f l = some a) : ∀ x ∈ l, f a ≤ f x := by
  cases l with
  | nil => simp [pyMinBy] at h
  | cons c cs =>
    simp only [pyMinBy, Option.some.injEq] at h
    exact h ▸ foldMinBy_le f c cs

lemma pyMaxBy_mem {α : Type} (f : α → ℚ) (l : List α) (a : α)
    (h : pyMaxBy f l = some a) : a ∈ l := by
  cases l with
  | nil => simp [pyMaxBy] at h
  | cons c cs =>
    simp only [pyMaxBy, Option.some.injEq] at h
    exact h ▸ foldMaxBy_mem f c cs

lemma pyMaxBy_ge {α : Type} (f : α → ℚ) (l : List α) (a : α)
    (h : pyMaxBy f l = some a) : ∀ x ∈ l, f x ≤ f a := by
  cases l with
  | nil => simp [pyMaxBy] at h
  | cons c cs =>
    simp only [pyMaxBy, Option.some.injEq] at h
    exact h ▸ foldMaxBy_ge f c cs

lemma pyMinBy_eq_none_iff {α : Type} (f : α → ℚ) (l : List α) :
    pyMinBy f l = none ↔ l = [] := by
  cases l <;> simp [pyMinBy]

lemma foldl_add_notional (l : List Position) (a : ℚ) :
    l.foldl (fun acc p => acc + p.notional_value) a
      = a + (l.map Position.notional_value).sum := by
  induction l generalizing a with
  | nil => simp
  | cons p ps ih => simp [ih, add_assoc]

lemma foldl_long_notional (l : List Position) (a : ℚ) :
    l.foldl (fun acc p => if p.is_long then acc + p.notional_value else acc) a
      = a + ((l.filter Position.is_long).map Position.notional_value).sum := by
  induction l generalizing a with
  | nil => simp
  | cons p ps ih =>
    cases h : p.is_long with
    | false => simp [h, ih]
    | true => simp [h, ih, add_assoc]

/-! Spec-side definitions for claim C1, written from the claim's wording:
the five admissibility conditions and messages as the specification states
them, to be compared with the source embedding can_take_trade. -/

/-- Portfolio risk percentage as the claim words it: long-position notional
only, from the current ledger, as a percentage of account value (zero for a
non-positive account value, as the derived quantity is defined). -/
def specPortfolioRiskPct (m : RiskManager) : ℚ :=
  if m.account_value ≤ 0 then 0
  else ((m.open_positions.filter Position.is_long).map Position.notional_value).sum
    / m.account_value * 100

/-- Existing long plus short notional on one underlying, as the claim words
the concentration base. -/
def specUnderlyingNotional (m : RiskManager) (u : String) : ℚ :=
  ((m.open_positions.filter (fun p => decide (p.contract.underlying = u))).map
    Position.notional_value).sum

/-- Claim C1 check 3 condition: only for orders carrying a limit price,
limit_price * quantity * 100 strictly exceeds account_value *
max_single_trade_risk_pct / 100. -/
def specSingleTradeHit (m : RiskManager) (o : Order) : Bool :=
  match o.limit_price with
  | some p =>
    decide (p * (o.quantity : ℚ) * 100 > m.account_value * m.limits.max_single_trade_risk_pct / 100)
  | none => false

/-- Claim C1 check 3 message, naming both dollar figures. -/
def specSingleTradeMsg (m : RiskManager) (o : Order) : String :=
  match o.limit_price with
  | some p =>
    "Trade risk $" ++ toString (p * (o.quantity : ℚ) * 100) ++ " exceeds limit $"
      ++ toString (m.account_value * m.limits.max_single_trade_risk_pct / 100)
  | none => ""

/-- Claim C1 check 5 condition: only for orders carrying a limit price,
existing long and short notional on the order's underlying plus
limit_price * quantity * 100 strictly exceeds account_value *
max_concentration_pct / 100. -/
def specConcentrationHit (m : RiskManager) (o : Order) : Bool :=
  match o.limit_price with
  | some p =>
    decide (specUnderlyingNotional m o.contract.underlying + p * (o.quantity : ℚ) * 100
      > m.account_value * m.limits.max_concentration_pct / 100)
  | none => false

/-- Claim C1's description of can_take_trade: five checks in a fixed
order, short-circuiting at the first failure, accepting with reason
"Trade approved" when none trigger. -/
def canTakeTradeSpec (m : RiskManager) (o : Order) : Bool × String :=
  if m.daily_pnl < -(m.account_value * m.limits.max_daily_loss_pct / 100) then
    (false, "Daily loss limit reached")
  else if specPortfolioRiskPct m ≥ m.limits.max_portfolio_risk_pct then
    (false, "Portfolio risk limit reached")
  else if specSingleTradeHit m o then
    (false, specSingleTradeMsg m o)
  else if o.quantity > m.limits.max_position_size then
    (false, "Position size " ++ toString o.quantity ++ " exceeds limit")
  else if specConcentrationHit m o then
    (false, "Concentration limit reached for " ++ o.contract.underlying)
  else (true, "Trade approved")

lemma portfolio_risk_pct_eq_spec (m : RiskManager) :
    m.portfolio_risk_pct = specPortfolioRiskPct m := by
  unfold RiskManager.portfolio_risk_pct specPortfolioRiskPct RiskManager.portfolio_risk
  rw [foldl_long_notional, zero_add]

/-- Claim C1: can_take_trade evaluates exactly the five checks, in order,
short-circuiting at the first failure with that check's message, and
accepts with "Trade approved" when none trigger. -/
theorem claim_C1_can_take_trade_matches_spec (m : RiskManager) (o : Order) :
    m.can_take_trade o = canTakeTradeSpec m o := by
  unfold RiskManager.can_take_trade canTakeTradeSpec
  rw [portfolio_risk_pct_eq_spec]
  cases ho : o.limit_price with
  | none =>
    simp only [ho, specSingleTradeHit, specSingleTradeMsg, specConcentrationHit,
      ge_iff_le, gt_iff_lt, mul_div_assoc]
    split_ifs <;> first | rfl | contradiction
  | some p =>
    simp only [ho, specSingleTradeHit, specSingleTradeMsg, specConcentrationHit,
      specUnderlyingNotional, foldl_add_notional, zero_add,
      ge_iff_le, gt_iff_lt, mul_div_assoc, decide_eq_true_eq]
    split_ifs <;> rfl

/-- Claim C9: can_take_trade and get_risk_summary perform no mutation; the
post-state of either call is the pre-state, component by component
(account value, configured limits, daily P&L, and the open-position
ledger with its membership and order). -/
theorem claim_C9_queries_leave_state_unchanged (m : RiskManager) (o : Order) :
    (m.can_take_trade_call o).2 = m ∧
    m.get_risk_summary_call.2 = m ∧
    (m.can_take_trade_call o).2.account_value = m.account_value ∧
    (m.can_take_trade_call o).2.limits = m.limits ∧
    (m.can_take_trade_call o).2.daily_pnl = m.daily_pnl ∧
    (m.can_take_trade_call o).2.open_positions = m.open_positions ∧
    m.get_risk_summary_call.2.account_value = m.account_value ∧
    m.get_risk_summary_call.2.limits = m.limits ∧
    m.get_risk_summary_call.2.daily_pnl = m.daily_pnl ∧
    m.get_risk_summary_call.2.open_positions = m.open_positions :=
  ⟨rfl, rfl, rfl, rfl, rfl, rfl, rfl, rfl, rfl, rfl⟩

/-- Claim C3: for an order with no limit price, can_take_trade reduces to
the daily-loss, portfolio-risk and position-size checks alone; the
single-trade-risk and concentration rejections can never be returned. -/
theorem claim_C3_market_orders_skip_checks_3_and_5 (m : RiskManager) (o : Order)
    (h : o.limit_price = none) :
    m.can_take_trade o =
      (if m.daily_pnl < -(m.account_value * (m.limits.max_daily_loss_pct / 100)) then
        (false, "Daily loss limit reached")
      else if m.limits.max_portfolio_risk_pct ≤ m.portfolio_risk_pct then
        (false, "Portfolio risk limit reached")
      else if m.limits.max_position_size < o.quantity then
        (false, "Position size " ++ toString o.quantity ++ " exceeds limit")
      else (true, "Trade approved")) := by
  unfold RiskManager.can_take_trade
  simp only [h]

/-- A contract on SPY used by concrete witnesses. -/
def spyCall475 : OptionContract :=
  { symbol := "SPY241011C00475000"
    underlying := "SPY"
    option_type := OptionType.call
    strike := 475
    expiration := 0 }

/-- A short SPY position whose notional (30000) exceeds 25 percent of a
100000 account: concentration on SPY is already breached. -/
def wShortPosition : Position :=
  { contract := spyCall475
    quantity := 10
    entry_price := 30
    entry_time := 0
    side := OrderSide.sell }

/-- Manager state for the claim C3 witness: default limits, flat daily
P&L, one short SPY position breaching the concentration cap. -/
def wManager : RiskManager :=
  { account_value := 100000
    limits := {}
    daily_pnl := 0
    open_positions := [wShortPosition] }

/-- A market order (no limit price) on the same underlying. -/
def wMarketOrder : Order :=
  { contract := spyCall475
    side := OrderSide.buy
    quantity := 1
    order_type := "market"
    limit_price := none }

theorem claim_C3_witness :
    specUnderlyingNotional wManager "SPY"
        > wManager.account_value * wManager.limits.max_concentration_pct / 100 ∧
    wManager.can_take_trade wMarketOrder = (true, "Trade approved") := by
  constructor
  · norm_num [specUnderlyingNotional, wManager, wShortPosition, spyCall475,
      Position.notional_value]
  · have hsb : OrderSide.sell ≠ OrderSide.buy := by decide
    rw [claim_C3_market_orders_skip_checks_3_and_5 wManager wMarketOrder rfl]
    norm_num [wManager, wMarketOrder, wShortPosition, spyCall475, hsb,
      RiskManager.portfolio_risk_pct, RiskManager.portfolio_risk, Position.is_long]

/-- Claim C8's validity predicate, written from the claim's words:
quantity positive and, exactly when the kind is limit, a present and
positive limit price; on a market order the limit-price field is
ignored. -/
def orderValidClaimC8 (o : Order) : Bool :=
  decide (0 < o.quantity) &&
    (if o.order_type = "limit" then
      (match o.limit_price with
       | some p => decide (0 < p)
       | none => false)
     else true)

/-- A market order carrying a negative limit price. -/
def marketOrderNegPrice : Order :=
  { contract := spyCall475
    side := OrderSide.buy
    quantity := 1
    order_type := "market"
    limit_price := some (-1) }

/-- Claim C8 counterexample: a market order with quantity 1 and a carried
limit price of -1 is valid under the claim's characterisation but invalid
under Order.validate, so a market order's validity does depend on the
limit-price field it carries. -/
theorem claim_C8_counterexample :
    orderValidClaimC8 marketOrderNegPrice = true ∧
    marketOrderNegPrice.validate = false := by
  constructor
  · decide
  · decide

/-- Amended claim C8 validity: quantity positive, a limit order must carry
a limit price, and any carried limit price (on any order kind) must be
positive. -/
def orderValidAmendedC8 (o : Order) : Bool :=
  decide (0 < o.quantity) &&
    (if o.order_type = "limit" then o.limit_price.isSome else true) &&
    (match o.limit_price with
     | some p => decide (0 < p)
     | none => true)

/-- Claim C8 amended: order validity is the pure predicate quantity > 0,
and a limit price present when the kind is limit, and any present limit
price positive. -/
theorem claim_C8_validate_amended (o : Order) :
    o.validate = orderValidAmendedC8 o := by
  unfold Order.validate orderValidAmendedC8
  by_cases hq : o.quantity ≤ 0
  · simp [hq, not_lt.mpr hq]
  · cases hp : o.limit_price with
    | none =>
      by_cases ht : o.order_type = "limit" <;> simp [hq, ht, hp, not_le.mp hq]
    | some p =>
      by_cases hpp : p ≤ 0
      · by_cases ht : o.order_type = "limit" <;>
          simp [hq, ht, hp, hpp, not_le.mp hq, not_lt.mpr hpp]
      · by_cases ht : o.order_type = "limit" <;>
          simp [hq, ht, hp, hpp, not_le.mp hq, not_le.mp hpp]

/-- A quoted SPY call at strike 475 (bid 2, ask 3, mid 2.5). -/
def quotedCall475 : OptionContract :=
  { symbol := "C475"
    underlying := "SPY"
    option_type := OptionType.call
    strike := 475
    expiration := 0
    bid := some 2
    ask := some 3 }

/-- A quoted SPY put at strike 475 (bid 2, ask 3, mid 2.5). -/
def quotedPut475 : OptionContract :=
  { symbol := "P475"
    underlying := "SPY"
    option_type := OptionType.put
    strike := 475
    expiration := 0
    bid := some 2
    ask := some 3 }

/-- A signal whose parallel arrays have lengths 2, 2 and 3: structurally
invalid, yet the chained-comparison test in validate lets it through. -/
def mismatchedSignal : StrategySignal :=
  { strategy_type := StrategyType.long_call
    contracts := [quotedCall475, quotedPut475]
    sides := [OrderSide.buy, OrderSide.buy]
    quantities := [1, 1, 1]
    confidence := 0.7
    reason := "mismatched lengths"
    timestamp := 0 }

/-- Claim C2, code-bug evidence: a signal with contracts/sides of length 2
but quantities of length 3 passes StrategySignal.validate (the Python
chained comparison len(contracts) != len(sides) != len(quantities) only
rejects when both adjacent pairs differ), so create_orders raises nothing
and silently returns two orders by zip truncation, where the claim and
the specification require a hard invalid-signal failure. -/
theorem claim_C2_unequal_lengths_accepted :
    mismatchedSignal.contracts.length = 2 ∧
    mismatchedSignal.sides.length = 2 ∧
    mismatchedSignal.quantities.length = 3 ∧
    mismatchedSignal.validate = true ∧
    (create_orders {} mismatchedSignal).toOption.map List.length = some 2 := by
  refine ⟨rfl, rfl, rfl, ?_, ?_⟩
  · norm_num [StrategySignal.validate, mismatchedSignal]
  · have hv : mismatchedSignal.validate = true := by
      norm_num [StrategySignal.validate, mismatchedSignal]
    unfold create_orders
    rw [hv]
    simp [Except.toOption, mismatchedSignal]

/-- Claim C4's sizing function, written from the claim's words: 0 for an
undefined or non-positive mid price or non-positive risk per contract,
otherwise the floor of max_risk over risk_per_contract, clamped above by
max_contracts. -/
def positionSizeClaimC4 (s : PositionSizer) (contract : OptionContract)
    (stop_loss_pct : ℚ) : Int :=
  match contract.mid_price with
  | none => 0
  | some m =>
    if m ≤ 0 then 0
    else if m * (stop_loss_pct / 100) * 100 ≤ 0 then 0
    else
      min ⌊s.account_value * s.risk_per_trade_pct / 100 / (m * (stop_loss_pct / 100) * 100)⌋
        s.max_contracts

/-- A contract quoted bid 2.5 / ask 2.6, so mid price 2.55. -/
def contractMid255 : OptionContract :=
  { symbol := "M255"
    underlying := "SPY"
    option_type := OptionType.call
    strike := 475
    expiration := 0
    bid := some (5 / 2)
    ask := some (13 / 5) }

/-- Sizer with a negative risk-per-trade percentage. -/
def sizerNegPct : PositionSizer :=
  { account_value := 100000
    risk_per_trade_pct := -1
    max_contracts := 10 }

lemma ceil_neg_400_div_51 : ⌈(-400 : ℚ) / 51⌉ = -7 := by
  rw [show ((-400 : ℚ) / 51) = -(400 / 51) by ring, Int.ceil_neg]
  norm_num

/-- Claim C4 counterexample: with account_value 100000,
risk_per_trade_pct -1, max_contracts 10, mid price 2.55 and stop loss 50,
the code truncates -1000 / 127.5 toward zero and returns -7, while the
claim's floor formula gives -8: int() is truncation toward zero, not
floor, and they differ on the negative quotient. -/
theorem claim_C4_counterexample :
    sizerNegPct.calculate_position_size contractMid255 50 = -7 ∧
    positionSizeClaimC4 sizerNegPct contractMid255 50 = -8 := by
  constructor
  · have h1 : contractMid255.mid_price = some (51 / 20) := by
      norm_num [OptionContract.mid_price, contractMid255]
    have h2 : ((100000 : ℚ) * (-1 / 100)) / (51 / 20 * (50 / 100) * 100)
        = (-400 : ℚ) / 51 := by norm_num
    simp only [PositionSizer.calculate_position_size, h1, sizerNegPct]
    rw [if_neg (by norm_num), if_neg (by norm_num)]
    simp only [h2, ratTrunc]
    rw [if_pos (by norm_num), ceil_neg_400_div_51]
    decide
  · have h1 : contractMid255.mid_price = some (51 / 20) := by
      norm_num [OptionContract.mid_price, contractMid255]
    have h2 : ((100000 : ℚ) * (-1) / 100) / (51 / 20 * (50 / 100) * 100)
        = (-400 : ℚ) / 51 := by norm_num
    simp only [positionSizeClaimC4, h1, sizerNegPct]
    rw [if_neg (by norm_num), if_neg (by norm_num)]
    rw [h2, show ⌊(-400 : ℚ) / 51⌋ = -8 by norm_num]
    decide

/-- Claim C4 amended sizing function: as the claim states it, but with
Python int() truncation toward zero in place of floor. -/
def positionSizeAmendedC4 (s : PositionSizer) (contract : OptionContract)
    (stop_loss_pct : ℚ) : Int :=
  match contract.mid_price with
  | none => 0
  | some m =>
    if m ≤ 0 then 0
    else if m * (stop_loss_pct / 100) * 100 ≤ 0 then 0
    else
      min (ratTrunc (s.account_value * s.risk_per_trade_pct / 100
        / (m * (stop_loss_pct / 100) * 100))) s.max_contracts

/-- Claim C4 amended: the sizer is the stateless function returning 0 for
an unpriced or non-positively priced contract or non-positive risk per
contract, and otherwise the truncation toward zero of max_risk over
risk_per_contract clamped above by max_contracts; truncation agrees with
the claimed floor whenever account value and risk percentage are
non-negative, and the claim's concrete example evaluates to 7. -/
theorem claim_C4_position_size_amended :
    (∀ (s : PositionSizer) (c : OptionContract) (stop : ℚ),
      s.calculate_position_size c stop = positionSizeAmendedC4 s c stop) ∧
    (∀ (s : PositionSizer) (c : OptionContract) (stop : ℚ),
      0 ≤ s.account_value → 0 ≤ s.risk_per_trade_pct →
      s.calculate_position_size c stop = positionSizeClaimC4 s c stop) ∧
    PositionSizer.calculate_position_size
      { account_value := 100000, risk_per_trade_pct := 1, max_contracts := 10 }
      contractMid255 50 = 7 := by
  refine ⟨?_, ?_, ?_⟩
  · intro s c stop
    unfold PositionSizer.calculate_position_size positionSizeAmendedC4
    cases c.mid_price with
    | none => rfl
    | some m =>
      by_cases hm : m ≤ 0
      · simp [hm]
      · by_cases hr : m * (stop / 100) * 100 ≤ 0
        · simp [hm, hr]
        · have e : s.account_value * (s.risk_per_trade_pct / 100) / (m * (stop / 100) * 100)
              = s.account_value * s.risk_per_trade_pct / 100 / (m * (stop / 100) * 100) := by
            ring
          simp only [if_neg hm, if_neg hr, e]
  · intro s c stop hav hpct
    unfold PositionSizer.calculate_position_size positionSizeClaimC4
    cases c.mid_price with
    | none => rfl
    | some m =>
      by_cases hm : m ≤ 0
      · simp [hm]
      · by_cases hr : m * (stop / 100) * 100 ≤ 0
        · simp [hm, hr]
        · have e : s.account_value * (s.risk_per_trade_pct / 100) / (m * (stop / 100) * 100)
              = s.account_value * s.risk_per_trade_pct / 100 / (m * (stop / 100) * 100) := by
            ring
          have hq : (0 : ℚ)
              ≤ s.account_value * s.risk_per_trade_pct / 100 / (m * (stop / 100) * 100) :=
            div_nonneg (div_nonneg (mul_nonneg hav hpct) (by norm_num))
              (le_of_lt (not_le.mp hr))
          simp only [if_neg hm, if_neg hr, ratTrunc, e]
          rw [if_neg (not_lt.mpr hq)]
  · have h1 : contractMid255.mid_price = some (51 / 20) := by
      norm_num [OptionContract.mid_price, contractMid255]
    have h2 : ((100000 : ℚ) * (1 / 100)) / (51 / 20 * (50 / 100) * 100)
        = (400 : ℚ) / 51 := by norm_num
    simp only [PositionSizer.calculate_position_size, h1]
    rw [if_neg (by norm_num), if_neg (by norm_num)]
    simp only [h2, ratTrunc]
    rw [if_neg (by norm_num), show ⌊(400 : ℚ) / 51⌋ = 7 by norm_num]
    decide

/-- Claim C4 witness: the truncation and floor forms agree at the
non-negative concrete configuration of the claim's example. -/
theorem claim_C4_witness :
    PositionSizer.calculate_position_size
        { account_value := 100000, risk_per_trade_pct := 1, max_contracts := 10 }
        contractMid255 50
      = positionSizeClaimC4
        { account_value := 100000, risk_per_trade_pct := 1, max_contracts := 10 }
        contractMid255 50 :=
  claim_C4_position_size_amended.2.1
    { account_value := 100000, risk_per_trade_pct := 1, max_contracts := 10 }
    contractMid255 50 (by norm_num) (by norm_num)

/-- Claim C10: on every signal that passes validate, create_orders
succeeds; every returned order has kind "limit" and limit price equal to
its contract's mid price, so an order for a contract with no mid price
fails Order.validate; with equal-length parallel arrays there is exactly
one order per leg, with the claimed quantity cap and per-leg fields. -/
theorem claim_C10_create_orders_limit_kind (cfg : BaseStrategyConfig)
    (s : StrategySignal) (hv : s.validate = true) :
    ∃ os, create_orders cfg s = Except.ok os ∧
      (∀ o ∈ os, o.order_type = "limit" ∧ o.limit_price = o.contract.mid_price ∧
        (o.contract.mid_price = none → o.validate = false)) ∧
      (s.contracts.length = s.sides.length → s.sides.length = s.quantities.length →
        os.length = s.contracts.length) ∧
      (∀ i, ∀ hi : i < os.length, ∀ hc : i < s.contracts.length,
        ∀ hs2 : i < s.sides.length, ∀ hq : i < s.quantities.length,
        os[i].contract = s.contracts[i] ∧ os[i].side = s.sides[i] ∧
        os[i].quantity = min s.quantities[i] cfg.max_position_size ∧
        os[i].limit_price = (s.contracts[i]).mid_price) := by
  have he : create_orders cfg s =
      Except.ok ((s.contracts.zip (s.sides.zip s.quantities)).map
        (fun leg =>
          { contract := leg.1
            side := leg.2.1
            quantity := min leg.2.2 cfg.max_position_size
            limit_price := leg.1.mid_price })) := by
    unfold create_orders
    rw [hv]
    simp
  refine ⟨_, he, ?_, ?_, ?_⟩
  · intro o ho
    rw [List.mem_map] at ho
    obtain ⟨leg, hleg, rfl⟩ := ho
    refine ⟨rfl, rfl, ?_⟩
    intro hmid
    simp only [Order.validate, hmid]
    by_cases hq : min leg.2.2 cfg.max_position_size ≤ 0
    · rw [if_pos hq]
    · rw [if_neg hq, if_pos (by simp)]
  · intro h1 h2
    simp only [List.length_map, List.length_zip, ← h1, ← h2]
    omega
  · intro i hi hc hs2 hq
    have hz : i < (s.contracts.zip (s.sides.zip s.quantities)).length := by
      simp only [List.length_zip]
      omega
    refine ⟨?_, ?_, ?_, ?_⟩ <;>
      simp [List.getElem_map, List.getElem_zip]

/-- A contract with no bid, no ask and no last price: mid price undefined. -/
def unquotedContract : OptionContract :=
  { symbol := "Q400"
    underlying := "QQQ"
    option_type := OptionType.call
    strike := 400
    expiration := 0 }

/-- A structurally valid one-leg signal on the unquoted contract. -/
def unquotedSignal : StrategySignal :=
  { strategy_type := StrategyType.long_call
    contracts := [unquotedContract]
    sides := [OrderSide.buy]
    quantities := [1]
    confidence := 1 / 2
    reason := "unquoted leg"
    timestamp := 0 }

/-- The order create_orders builds for that leg: kind "limit", no limit
price. -/
def unquotedOrder : Order :=
  { contract := unquotedContract
    side := OrderSide.buy
    quantity := 1
    limit_price := none }

theorem claim_C10_witness :
    create_orders {} unquotedSignal = Except.ok [unquotedOrder] ∧
    unquotedOrder.order_type = "limit" ∧
    unquotedOrder.validate = false := by
  obtain ⟨os, h1, h2, h3, h4⟩ :=
    claim_C10_create_orders_limit_kind {} unquotedSignal
      (by norm_num [StrategySignal.validate, unquotedSignal])
  have he : create_orders {} unquotedSignal = Except.ok [unquotedOrder] := by
    unfold create_orders
    rw [show unquotedSignal.validate = true from
      by norm_num [StrategySignal.validate, unquotedSignal]]
    simp [unquotedSignal, unquotedOrder, unquotedContract, OptionContract.mid_price]
  rw [he] at h1
  injection h1 with hos
  refine ⟨he, rfl, ?_⟩
  have hm := h2 unquotedOrder (by rw [← hos]; exact List.mem_cons_self _ _)
  exact hm.2.2 rfl

lemma straddleLegScan_fst_isSome (atm : ℚ)
    (st : Option OptionContract × Option OptionContract) (l : List OptionContract) :
    (straddleLegScan atm st l).1.isSome =
      (st.1.isSome ||
        l.any (fun c => decide (c.strike = atm) && decide (c.option_type = OptionType.call))) := by
  induction l generalizing st with
  | nil => simp [straddleLegScan]
  | cons c cs ih =>
    simp only [straddleLegScan]
    rw [ih]
    by_cases hs : c.strike = atm
    · cases ht : c.option_type with
      | call => simp [hs, ht]
      | put => simp [hs, ht]
    · simp [hs]

lemma straddleLegScan_snd_isSome (atm : ℚ)
    (st : Option OptionContract × Option OptionContract) (l : List OptionContract) :
    (straddleLegScan atm st l).2.isSome =
      (st.2.isSome ||
        l.any (fun c => decide (c.strike = atm) && decide (c.option_type = OptionType.put))) := by
  induction l generalizing st with
  | nil => simp [straddleLegScan]
  | cons c cs ih =>
    simp only [straddleLegScan]
    rw [ih]
    by_cases hs : c.strike = atm
    · cases ht : c.option_type with
      | call => simp [hs, ht]
      | put => simp [hs, ht]
    · simp [hs]

lemma straddleLegScan_fst_eq_some (atm : ℚ)
    (st : Option OptionContract × Option OptionContract) (l : List OptionContract)
    (c : OptionContract) (h : (straddleLegScan atm st l).1 = some c) :
    (c ∈ l ∧ c.strike = atm ∧ c.option_type = OptionType.call) ∨ st.1 = some c := by
  induction l generalizing st with
  | nil =>
    right
    simpa [straddleLegScan] using h
  | cons d ds ih =>
    simp only [straddleLegScan] at h
    rcases ih _ h with ⟨hm, hs, ht⟩ | hst
    · exact Or.inl ⟨List.mem_cons_of_mem d hm, hs, ht⟩
    · by_cases hds : d.strike = atm
      · cases hdt : d.option_type with
        | call =>
          rw [if_pos hds] at hst
          simp only [hdt] at hst
          simp only [Option.some.injEq] at hst
          exact Or.inl ⟨hst ▸ List.mem_cons_self d ds, hst ▸ hds, hst ▸ hdt⟩
        | put =>
          rw [if_pos hds] at hst
          simp only [hdt] at hst
          exact Or.inr hst
      · rw [if_neg hds] at hst
        exact Or.inr hst

lemma straddleLegScan_snd_eq_some (atm : ℚ)
    (st : Option OptionContract × Option OptionContract) (l : List OptionContract)
    (c : OptionContract) (h : (straddleLegScan atm st l).2 = some c) :
    (c ∈ l ∧ c.strike = atm ∧ c.option_type = OptionType.put) ∨ st.2 = some c := by
  induction l generalizing st with
  | nil =>
    right
    simpa [straddleLegScan] using h
  | cons d ds ih =>
    simp only [straddleLegScan] at h
    rcases ih _ h with ⟨hm, hs, ht⟩ | hst
    · exact Or.inl ⟨List.mem_cons_of_mem d hm, hs, ht⟩
    · by_cases hds : d.strike = atm
      · cases hdt : d.option_type with
        | call =>
          rw [if_pos hds] at hst
          simp only [hdt] at hst
          exact Or.inr hst
        | put =>
          rw [if_pos hds] at hst
          simp only [hdt] at hst
          simp only [Option.some.injEq] at hst
          exact Or.inl ⟨hst ▸ List.mem_cons_self d ds, hst ▸ hds, hst ▸ hdt⟩
      · rw [if_neg hds] at hst
        exact Or.inr hst

/-- Template call contract for the concrete straddle chain. -/
def chainCall (k : ℚ) : OptionContract :=
  { symbol := "SPYC"
    underlying := "SPY"
    option_type := OptionType.call
    strike := k
    expiration := 0
    bid := some 1
    ask := some 2 }

/-- Template put contract for the concrete straddle chain. -/
def chainPut (k : ℚ) : OptionContract :=
  { symbol := "SPYP"
    underlying := "SPY"
    option_type := OptionType.put
    strike := k
    expiration := 0
    bid := some 1
    ask := some 2 }

/-- Calls and puts at strikes 465, 470, 475, 480 and 485. -/
def straddleChain473 : List OptionContract :=
  [chainCall 465, chainCall 470, chainCall 475, chainCall 480, chainCall 485,
   chainPut 465, chainPut 470, chainPut 475, chainPut 480, chainPut 485]

/-- Claim C5: within hours, the straddle strategy computes the ATM strike
as a strike of the pooled contract set minimising the distance to the
underlying price (no signal on an empty set), emits a two-leg
quantity-1-each both-buy confidence-0.65 signal exactly when both a call
and a put at that strike exist, and on the concrete chain with strikes
465..485 at price 473 the ATM strike is 475. -/
theorem claim_C5_straddle (cfg : StraddleConfig) (price : ℚ)
    (contracts : List OptionContract) (t : Nat)
    (hin : is_within_trading_hours cfg.toBaseStrategyConfig t = true) :
    (contracts = [] → StraddleStrategy.generate_signal cfg price contracts t = none) ∧
    (∀ atm, StraddleStrategy.find_atm_strike contracts price = some atm →
      (∃ c ∈ contracts, c.strike = atm) ∧
      (∀ c ∈ contracts, |atm - price| ≤ |c.strike - price|) ∧
      (((StraddleStrategy.generate_signal cfg price contracts t).isSome = true) ↔
        ((∃ c ∈ contracts, c.option_type = OptionType.call ∧ c.strike = atm) ∧
         (∃ c ∈ contracts, c.option_type = OptionType.put ∧ c.strike = atm))) ∧
      (∀ sig, StraddleStrategy.generate_signal cfg price contracts t = some sig →
        sig.sides = [OrderSide.buy, OrderSide.buy] ∧ sig.quantities = [1, 1] ∧
        sig.confidence = 0.65 ∧
        ∃ ac ap, sig.contracts = [ac, ap] ∧ ac ∈ contracts ∧ ap ∈ contracts ∧
          ac.option_type = OptionType.call ∧ ap.option_type = OptionType.put ∧
          ac.strike = atm ∧ ap.strike = atm)) ∧
    StraddleStrategy.find_atm_strike straddleChain473 473 = some 475 := by
  refine ⟨?_, ?_, ?_⟩
  · intro hnil
    subst hnil
    simp [StraddleStrategy.generate_signal, hin, StraddleStrategy.find_atm_strike, pyMinBy]
  · intro atm hatm
    have hatm2 : pyMinBy (fun s => |s - price|) (contracts.map (fun c => c.strike))
        = some atm := hatm
    have hmem : ∃ c ∈ contracts, c.strike = atm := by
      have := pyMinBy_mem (fun s => |s - price|) (contracts.map (fun c => c.strike)) atm hatm2
      rw [List.mem_map] at this
      obtain ⟨c, hc, hceq⟩ := this
      exact ⟨c, hc, hceq⟩
    have hmin : ∀ c ∈ contracts, |atm - price| ≤ |c.strike - price| := by
      intro c hc
      exact pyMinBy_le (fun s => |s - price|) (contracts.map (fun c => c.strike)) atm hatm2
        c.strike (List.mem_map_of_mem _ hc)
    refine ⟨hmem, hmin, ?_, ?_⟩
    · constructor
      · intro hsome
        unfold StraddleStrategy.generate_signal at hsome
        rcases hscan : straddleLegScan atm (none, none) contracts with ⟨oc, op⟩
        cases oc with
        | none => simp [hin, hatm, hscan] at hsome
        | some ac =>
          cases op with
          | none => simp [hin, hatm, hscan] at hsome
          | some ap =>
            have hc := straddleLegScan_fst_eq_some atm (none, none) contracts ac
              (by rw [hscan])
            have hp := straddleLegScan_snd_eq_some atm (none, none) contracts ap
              (by rw [hscan])
            rcases hc with ⟨hm1, hs1, ht1⟩ | habs
            · rcases hp with ⟨hm2, hs2, ht2⟩ | habs2
              · exact ⟨⟨ac, hm1, ht1, hs1⟩, ⟨ap, hm2, ht2, hs2⟩⟩
              · simp at habs2
            · simp at habs
      · rintro ⟨⟨ac, hmc, htc, hsc⟩, ⟨ap, hmp, htp, hsp⟩⟩
        unfold StraddleStrategy.generate_signal
        rcases hscan : straddleLegScan atm (none, none) contracts with ⟨oc, op⟩
        have h1 : oc.isSome = true := by
          have := straddleLegScan_fst_isSome atm (none, none) contracts
          rw [hscan] at this
          rw [show oc = (oc, op).1 from rfl, this]
          simp only [straddleLegScan_fst_isSome, Option.isSome_none, Bool.false_or,
            List.any_eq_true]
          exact ⟨ac, hmc, by simp [hsc, htc]⟩
        have h2 : op.isSome = true := by
          have := straddleLegScan_snd_isSome atm (none, none) contracts
          rw [hscan] at this
          rw [show op = (oc, op).2 from rfl, this]
          simp only [straddleLegScan_snd_isSome, Option.isSome_none, Bool.false_or,
            List.any_eq_true]
          exact ⟨ap, hmp, by simp [hsp, htp]⟩
        cases oc with
        | none => simp at h1
        | some c1 =>
          cases op with
          | none => simp at h2
          | some c2 => simp [hin, hatm, hscan]
    · intro sig hsig
      unfold StraddleStrategy.generate_signal at hsig
      rcases hscan : straddleLegScan atm (none, none) contracts with ⟨oc, op⟩
      cases oc with
      | none => simp [hin, hatm, hscan] at hsig
      | some ac =>
        cases op with
        | none => simp [hin, hatm, hscan] at hsig
        | some ap =>
          simp only [hin, hatm, hscan, not_true, Bool.not_true, if_false,
            Option.some.injEq] at hsig
          have hc := straddleLegScan_fst_eq_some atm (none, none) contracts ac
            (by rw [hscan])
          have hp := straddleLegScan_snd_eq_some atm (none, none) contracts ap
            (by rw [hscan])
          rcases hc with ⟨hm1, hs1, ht1⟩ | habs
          · rcases hp with ⟨hm2, hs2, ht2⟩ | habs2
            · refine ⟨?_, ?_, ?_, ac, ap, ?_, hm1, hm2, ht1, ht2, hs1, hs2⟩ <;>
                rw [← hsig]
            · simp at habs2
          · simp at habs
  · norm_num [StraddleStrategy.find_atm_strike, straddleChain473, chainCall, chainPut,
      pyMinBy, foldMinBy]

theorem claim_C5_witness :
    StraddleStrategy.find_atm_strike straddleChain473 473 = some 475 ∧
    (StraddleStrategy.generate_signal {} 473 straddleChain473 0).isSome = true := by
  have h := claim_C5_straddle {} 473 straddleChain473 0 (by decide)
  refine ⟨h.2.2, ?_⟩
  have hb := h.2.1 475 h.2.2
  exact hb.2.2.1.mpr
    ⟨⟨chainCall 475, by simp [straddleChain473], rfl, rfl⟩,
     ⟨chainPut 475, by simp [straddleChain473], rfl, rfl⟩⟩

lemma strangle_signal_eq (cfg : StrangleConfig) (price : ℚ)
    (contracts : List OptionContract) (t : Nat)
    (hin : is_within_trading_hours cfg.toBaseStrategyConfig t = true) :
    StrangleStrategy.generate_signal cfg price contracts t =
      match pyMinBy (fun c => c.strike)
          ((contracts.filter (fun c => decide (c.option_type = OptionType.call))).filter
            (fun c => decide (price < c.strike))),
        pyMaxBy (fun c => c.strike)
          ((contracts.filter (fun c => decide (c.option_type = OptionType.put))).filter
            (fun c => decide (c.strike < price))) with
      | some selected_call, some selected_put =>
        some
          { strategy_type := StrategyType.strangle
            contracts := [selected_call, selected_put]
            sides := [OrderSide.buy, OrderSide.buy]
            quantities := [1, 1]
            confidence := 0.6
            reason := "Strangle: call@" ++ toString selected_call.strike
              ++ ", put@" ++ toString selected_put.strike
            timestamp := t }
      | _, _ => none := by
  unfold StrangleStrategy.generate_signal
  rw [hin]
  simp only [not_true, if_false, Bool.not_true]
  by_cases hcp : (contracts.filter (fun c => decide (c.option_type = OptionType.call))).isEmpty
      ∨ (contracts.filter (fun c => decide (c.option_type = OptionType.put))).isEmpty
  · rw [if_pos hcp]
    rcases hcp with hc | hc
    · rw [List.isEmpty_iff.mp hc]
      simp [pyMinBy]
    · rw [List.isEmpty_iff.mp hc]
      cases pyMinBy (fun c => c.strike)
          ((contracts.filter (fun c => decide (c.option_type = OptionType.call))).filter
            (fun c => decide (price < c.strike))) <;> simp [pyMaxBy]
  · rw [if_neg hcp]
    by_cases ho : ((contracts.filter (fun c => decide (c.option_type = OptionType.call))).filter
        (fun c => decide (price < c.strike))).isEmpty
      ∨ ((contracts.filter (fun c => decide (c.option_type = OptionType.put))).filter
        (fun c => decide (c.strike < price))).isEmpty
    · rw [if_pos ho]
      rcases ho with hc | hc
      · rw [List.isEmpty_iff.mp hc]
        simp [pyMinBy]
      · rw [List.isEmpty_iff.mp hc]
        cases pyMinBy (fun c => c.strike)
            ((contracts.filter (fun c => decide (c.option_type = OptionType.call))).filter
              (fun c => decide (price < c.strike))) <;> simp [pyMaxBy]
    · rw [if_neg ho]

/-- The concrete chain of claim C6: OTM calls at 480 and 490, OTM puts at
460 and 470, around an underlying price of 475. -/
def strangleChain475 : List OptionContract :=
  [chainCall 480, chainCall 490, chainPut 460, chainPut 470]

/-- Claim C6: within hours, the strangle strategy emits a signal exactly
when some call sits strictly above the price and some put strictly below;
the emitted signal is two-leg, quantity 1 each, both buy, confidence 0.60,
its call leg an OTM call of minimal strike and its put leg an OTM put of
maximal strike; on the concrete chain the legs are the 480 call and the
470 put. -/
theorem claim_C6_strangle (cfg : StrangleConfig) (price : ℚ)
    (contracts : List OptionContract) (t : Nat)
    (hin : is_within_trading_hours cfg.toBaseStrategyConfig t = true) :
    (((StrangleStrategy.generate_signal cfg price contracts t).isSome = true) ↔
      ((∃ c ∈ contracts, c.option_type = OptionType.call ∧ price < c.strike) ∧
       (∃ c ∈ contracts, c.option_type = OptionType.put ∧ c.strike < price))) ∧
    (∀ sig, StrangleStrategy.generate_signal cfg price contracts t = some sig →
      sig.sides = [OrderSide.buy, OrderSide.buy] ∧ sig.quantities = [1, 1] ∧
      sig.confidence = 0.6 ∧
      ∃ sc sp, sig.contracts = [sc, sp] ∧
        sc ∈ contracts ∧ sc.option_type = OptionType.call ∧ price < sc.strike ∧
        (∀ c ∈ contracts, c.option_type = OptionType.call → price < c.strike →
          sc.strike ≤ c.strike) ∧
        sp ∈ contracts ∧ sp.option_type = OptionType.put ∧ sp.strike < price ∧
        (∀ c ∈ contracts, c.option_type = OptionType.put → c.strike < price →
          c.strike ≤ sp.strike)) ∧
    (StrangleStrategy.generate_signal {} 475 strangleChain475 0).map
        (fun sig => sig.contracts.map (fun c => c.strike)) = some [480, 470] := by
  rw [strangle_signal_eq cfg price contracts t hin]
  refine ⟨?_, ?_, ?_⟩
  · cases hmin : pyMinBy (fun c => c.strike)
        ((contracts.filter (fun c => decide (c.option_type = OptionType.call))).filter
          (fun c => decide (price < c.strike))) with
    | none =>
      have hnil := (pyMinBy_eq_none_iff _ _).mp hmin
      constructor
      · intro h
        cases hmax : pyMaxBy (fun c => c.strike)
            ((contracts.filter (fun c => decide (c.option_type = OptionType.put))).filter
              (fun c => decide (c.strike < price))) <;> simp [hmax] at h
      · rintro ⟨⟨c, hmc, htc, hoc⟩, -⟩
        exfalso
        have : c ∈ ((contracts.filter (fun c => decide (c.option_type = OptionType.call))).filter
            (fun c => decide (price < c.strike))) := by
          rw [List.mem_filter, List.mem_filter]
          exact ⟨⟨hmc, by simp [htc]⟩, by simp [hoc]⟩
        rw [hnil] at this
        simp at this
    | some sc =>
      cases hmax : pyMaxBy (fun c => c.strike)
          ((contracts.filter (fun c => decide (c.option_type = OptionType.put))).filter
            (fun c => decide (c.strike < price))) with
      | none =>
        have hnil : ((contracts.filter (fun c => decide (c.option_type = OptionType.put))).filter
            (fun c => decide (c.strike < price))) = [] := by
          cases hl : ((contracts.filter (fun c => decide (c.option_type = OptionType.put))).filter
              (fun c => decide (c.strike < price))) with
          | nil => rfl
          | cons x xs =>
            rw [hl] at hmax
            simp [pyMaxBy] at hmax
        constructor
        · intro h
          simp at h
        · rintro ⟨-, ⟨c, hmc, htc, hoc⟩⟩
          exfalso
          have : c ∈ ((contracts.filter (fun c => decide (c.option_type = OptionType.put))).filter
              (fun c => decide (c.strike < price))) := by
            rw [List.mem_filter, List.mem_filter]
            exact ⟨⟨hmc, by simp [htc]⟩, by simp [hoc]⟩
          rw [hnil] at this
          simp at this
      | some sp =>
        constructor
        · intro h
          have hscm := pyMinBy_mem _ _ _ hmin
          have hspm := pyMaxBy_mem _ _ _ hmax
          rw [List.mem_filter, List.mem_filter] at hscm hspm
          refine ⟨⟨sc, hscm.1.1, by simpa using hscm.1.2, by simpa using hscm.2⟩,
            ⟨sp, hspm.1.1, by simpa using hspm.1.2, by simpa using hspm.2⟩⟩
        · intro h
          simp
  · intro sig hsig
    cases hmin : pyMinBy (fun c => c.strike)
        ((contracts.filter (fun c => decide (c.option_type = OptionType.call))).filter
          (fun c => decide (price < c.strike))) with
    | none => rw [hmin] at hsig; simp at hsig
    | some sc =>
      cases hmax : pyMaxBy (fun c => c.strike)
          ((contracts.filter (fun c => decide (c.option_type = OptionType.put))).filter
            (fun c => decide (c.strike < price))) with
      | none => rw [hmin, hmax] at hsig; simp at hsig
      | some sp =>
        rw [hmin, hmax] at hsig
        simp only [Option.some.injEq] at hsig
        have hscm := pyMinBy_mem _ _ _ hmin
        have hspm := pyMaxBy_mem _ _ _ hmax
        have hscl := pyMinBy_le _ _ _ hmin
        have hspg := pyMaxBy_ge _ _ _ hmax
        rw [List.mem_filter, List.mem_filter] at hscm hspm
        refine ⟨by rw [← hsig], by rw [← hsig], by rw [← hsig], sc, sp, by rw [← hsig],
          hscm.1.1, by simpa using hscm.1.2, by simpa using hscm.2, ?_,
          hspm.1.1, by simpa using hspm.1.2, by simpa using hspm.2, ?_⟩
        · intro c hmc htc hoc
          refine hscl c ?_
          rw [List.mem_filter, List.mem_filter]
          exact ⟨⟨hmc, by simp [htc]⟩, by simp [hoc]⟩
        · intro c hmc htc hoc
          refine hspg c ?_
          rw [List.mem_filter, List.mem_filter]
          exact ⟨⟨hmc, by simp [htc]⟩, by simp [hoc]⟩
  · rw [strangle_signal_eq {} 475 strangleChain475 0 (by decide)]
    norm_num [strangleChain475, chainCall, chainPut, pyMinBy, pyMaxBy,
      foldMinBy, foldMaxBy]

theorem claim_C6_witness :
    (StrangleStrategy.generate_signal {} 475 strangleChain475 0).map
        (fun sig => sig.contracts.map (fun c => c.strike)) = some [480, 470] :=
  (claim_C6_strangle {} 475 strangleChain475 0 (by decide)).2.2

lemma selectByDeltaOrAtm_isSome (target price : ℚ) (l : List OptionContract)
    (h : l ≠ []) : (selectByDeltaOrAtm target price l).isSome = true := by
  unfold selectByDeltaOrAtm
  cases hd : deltaScan target none l with
  | some b => simp
  | none =>
    cases l with
    | nil => exact absurd rfl h
    | cons c cs => simp [pyMinBy]

/-- A call whose bid and ask are both zero: its mid price is defined and
equal to zero, which is falsy in Python, so the premium check is
skipped. -/
def zeroMidCall : OptionContract :=
  { symbol := "Z100"
    underlying := "SPY"
    option_type := OptionType.call
    strike := 100
    expiration := 0
    bid := some 0
    ask := some 0 }

/-- A long-call configuration with a negative premium cap. -/
def negCapConfig : LongCallConfig :=
  { max_premium_pct := -1 }

/-- Claim C7 counterexample: with a premium cap of -1 percent, the
selected contract has a defined mid price of 0, whose percentage of the
underlying price (0 percent) exceeds the cap, yet a signal is emitted:
the source gates the premium check on the truthiness of mid_price, so a
defined-but-zero mid price skips it. -/
theorem claim_C7_counterexample :
    selectByDeltaOrAtm negCapConfig.target_delta 100 [zeroMidCall] = some zeroMidCall ∧
    zeroMidCall.mid_price = some 0 ∧
    ((0 : ℚ) / 100 * 100 > negCapConfig.max_premium_pct) ∧
    (LongCallStrategy.generate_signal negCapConfig 100 [zeroMidCall] 0).isSome = true := by
  have hsel : selectByDeltaOrAtm negCapConfig.target_delta 100 [zeroMidCall]
      = some zeroMidCall := by
    simp [selectByDeltaOrAtm, deltaScan, pyMinBy, foldMinBy, zeroMidCall]
  have hmid : zeroMidCall.mid_price = some 0 := by
    norm_num [OptionContract.mid_price, zeroMidCall]
  refine ⟨hsel, hmid, by norm_num [negCapConfig], ?_⟩
  norm_num [LongCallStrategy.generate_signal, is_within_trading_hours, ALPACA_0DTE_CUTOFF,
    selectByDeltaOrAtm, deltaScan, pyMinBy, foldMinBy, zeroMidCall,
    OptionContract.mid_price, negCapConfig]

/-- Claim C7 amended: for a nonzero underlying price, the long-call
strategy returns no signal whenever its selected contract has a defined
nonzero mid price whose percentage of the underlying price exceeds the
configured max premium percentage (a defined mid price of exactly zero
skips the check); the long-put strategy applies no premium cap, emitting
a signal whenever it is within hours and any put is available, whatever
the selected put's mid price. -/
theorem claim_C7_premium_cap_asymmetry :
    (∀ (cfg : LongCallConfig) (price : ℚ) (contracts : List OptionContract) (t : Nat),
      price ≠ 0 →
      is_within_trading_hours cfg.toBaseStrategyConfig t = true →
      ∀ c, selectByDeltaOrAtm cfg.target_delta price
          (contracts.filter (fun x => decide (x.option_type = OptionType.call))) = some c →
      ∀ mp, c.mid_price = some mp → mp ≠ 0 →
      mp / price * 100 > cfg.max_premium_pct →
      LongCallStrategy.generate_signal cfg price contracts t = none) ∧
    (∀ (cfg : LongPutConfig) (price : ℚ) (contracts : List OptionContract) (t : Nat),
      is_within_trading_hours cfg.toBaseStrategyConfig t = true →
      contracts.filter (fun x => decide (x.option_type = OptionType.put)) ≠ [] →
      (LongPutStrategy.generate_signal cfg price contracts t).isSome = true) := by
  constructor
  · intro cfg price contracts t hp hin c hsel mp hmid hnz hrich
    unfold LongCallStrategy.generate_signal
    have hne : (contracts.filter (fun x => decide (x.option_type = OptionType.call))).isEmpty
        = false := by
      cases hl : contracts.filter (fun x => decide (x.option_type = OptionType.call)) with
      | nil =>
        rw [hl] at hsel
        simp [selectByDeltaOrAtm, deltaScan, pyMinBy] at hsel
      | cons x xs => rfl
    simp only [hin, hne, Bool.not_true, not_true, eq_self_iff_true, Bool.false_eq_true,
      if_false, ite_false, if_true, ite_true, not_false_eq_true]
    rw [hsel]
    simp [hmid, hnz, hrich]
  · intro cfg price contracts t hin hne
    unfold LongPutStrategy.generate_signal
    have hie : (contracts.filter (fun x => decide (x.option_type = OptionType.put))).isEmpty
        = false := by
      cases hl : contracts.filter (fun x => decide (x.option_type = OptionType.put)) with
      | nil => exact absurd hl hne
      | cons x xs => rfl
    cases hsel : selectByDeltaOrAtm cfg.target_delta price
        (contracts.filter (fun x => decide (x.option_type = OptionType.put))) with
    | none =>
      have := selectByDeltaOrAtm_isSome cfg.target_delta price
        (contracts.filter (fun x => decide (x.option_type = OptionType.put))) hne
      rw [hsel] at this
      simp at this
    | some best =>
      simp only [hin, hie, Bool.not_true, not_true, eq_self_iff_true, Bool.false_eq_true,
        if_false, ite_false, if_true, ite_true, not_false_eq_true]
      rw [hsel]
      simp

/-- A call with mid price 10, too rich against the default 2 percent cap
at an underlying price of 400 (10 / 400 * 100 = 2.5). -/
def richCall : OptionContract :=
  { symbol := "R400"
    underlying := "SPY"
    option_type := OptionType.call
    strike := 400
    expiration := 0
    bid := some 9
    ask := some 11 }

/-- A put with the same rich quote, selected by the long-put strategy. -/
def richPut : OptionContract :=
  { symbol := "RP400"
    underlying := "SPY"
    option_type := OptionType.put
    strike := 400
    expiration := 0
    bid := some 9
    ask := some 11 }

theorem claim_C7_witness :
    LongCallStrategy.generate_signal {} 400 [richCall] 0 = none ∧
    (LongPutStrategy.generate_signal {} 400 [richPut] 0).isSome = true := by
  constructor
  · refine claim_C7_premium_cap_asymmetry.1 {} 400 [richCall] 0 (by norm_num)
      (by decide) richCall ?_ 10 ?_ (by norm_num) ?_
    · simp [selectByDeltaOrAtm, deltaScan, pyMinBy, foldMinBy, richCall]
    · norm_num [OptionContract.mid_price, richCall]
    · norm_num
  · refine claim_C7_premium_cap_asymmetry.2 {} 400 [richPut] 0 (by decide) ?_
    simp [richPut]

theorem claim_C1_witness :
    wManager.can_take_trade wMarketOrder = canTakeTradeSpec wManager wMarketOrder :=
  claim_C1_can_take_trade_matches_spec wManager wMarketOrder

theorem claim_C8_witness :
    marketOrderNegPrice.validate = orderValidAmendedC8 marketOrderNegPrice :=
  claim_C8_validate_amended marketOrderNegPrice

theorem claim_C9_witness :
    (wManager.can_take_trade_call wMarketOrder).2 = wManager :=
  (claim_C9_queries_leave_state_unchanged wManager wMarketOrder).1

end AlphaOptions
